import Mathlib

/-!
Shallow embedding of the SteamCMD downloader (`src/app.py`): the identifier
extractor `extract_game_id`, the credential validator `validate_login`, the
log classifier `parse_progress`, and the monitor loop of `start_download`.

Strings are handled through their character lists.  Python's `re.search` on
the fixed patterns of the source is modelled by specialised searchers that
scan start positions left to right (leftmost match) and, at each position,
follow the pattern's greedy/backtracking semantics, which for these patterns
(digit runs delimited by non-digit literals) is deterministic.  Character
classes (`\d`, `\s`) are modelled over ASCII.
-/

namespace SteamApp

/-- `startsWithL needle hay`: `hay` begins with `needle`. -/
def startsWithL : List Char → List Char → Bool
  | [], _ => true
  | _ :: _, [] => false
  | a :: as, b :: bs => a == b && startsWithL as bs

/-- Python's `needle in hay` substring test. -/
def containsSub (needle : List Char) : List Char → Bool
  | [] => startsWithL needle []
  | c :: cs => startsWithL needle (c :: cs) || containsSub needle cs

/-- Strip an expected literal from the front, returning the rest. -/
def dropLit : List Char → List Char → Option (List Char)
  | [], l => some l
  | _ :: _, [] => none
  | a :: as, b :: bs => if a == b then dropLit as bs else none

/-- Greedy `\d+`: a nonempty maximal digit run and the remainder. -/
def takeDigits1 (l : List Char) : Option (List Char × List Char) :=
  let d := l.takeWhile Char.isDigit
  if d.isEmpty then none else some (d, l.dropWhile Char.isDigit)

/-- Try a position matcher at every start position, leftmost first
(`re.search`). -/
def searchSuffix (m : List Char → Option (List Char)) : List Char → Option (List Char)
  | [] => m []
  | c :: cs =>
    match m (c :: cs) with
    | some r => some r
    | none => searchSuffix m cs

/-- Consume one expected character. -/
def expectChar (c : Char) : List Char → Option (List Char)
  | x :: rest => if x == c then some rest else none
  | [] => none

/-- Matcher for `Progress: (\d+\.\d+)%` anchored at the current position. -/
def matchPat1At (l : List Char) : Option (List Char) :=
  (dropLit ("Progress: ".toList) l).bind fun r =>
    (takeDigits1 r).bind fun p1 =>
      (expectChar '.' p1.2).bind fun r2 =>
        (takeDigits1 r2).bind fun p2 =>
          (expectChar '%' p2.2).map fun _ => p1.1 ++ '.' :: p2.1

/-- Matcher for `(\d+\.\d+)% complete` anchored at the current position. -/
def matchPat2At (l : List Char) : Option (List Char) :=
  (takeDigits1 l).bind fun p1 =>
    (expectChar '.' p1.2).bind fun r2 =>
      (takeDigits1 r2).bind fun p2 =>
        (dropLit ("% complete".toList) p2.2).map fun _ => p1.1 ++ '.' :: p2.1

/-- Matcher for `(\d+)% \(\d+/\d+\)` anchored at the current position. -/
def matchPat3At (l : List Char) : Option (List Char) :=
  (takeDigits1 l).bind fun p1 =>
    (dropLit ("% (".toList) p1.2).bind fun r2 =>
      (takeDigits1 r2).bind fun p2 =>
        (expectChar '/' p2.2).bind fun r4 =>
          (takeDigits1 r4).bind fun p3 =>
            (expectChar ')' p3.2).map fun _ => p1.1

def searchPat1 (l : List Char) : Option (List Char) := searchSuffix matchPat1At l
def searchPat2 (l : List Char) : Option (List Char) := searchSuffix matchPat2At l
def searchPat3 (l : List Char) : Option (List Char) := searchSuffix matchPat3At l

/-- Python's `\s` over ASCII. -/
def isPySpace (c : Char) : Bool :=
  c == ' ' || c == '\t' || c == '\n' || c == '\r' || c == '\x0c' || c == '\x0b'

/-- Matcher for `ERROR\s*:\s*(.+)$` (MULTILINE) anchored at the current
position.  After the colon, greedy `\s*` with backtracking against `(.+)$`
captures the rest of the line from the first non-space character; if the
whitespace run reaches the end of the input, backtracking yields the last
non-newline whitespace character as a one-character capture. -/
def matchErrAt (l : List Char) : Option (List Char) :=
  (dropLit ("ERROR".toList) l).bind fun r =>
    (expectChar ':' (r.dropWhile isPySpace)).bind fun r2 =>
      let rest := r2.dropWhile isPySpace
      if rest.isEmpty then
        ((r2.filter (fun c => c != '\n')).getLast?).map fun c => [c]
      else
        some (rest.takeWhile (fun c => c != '\n'))

def searchError (l : List Char) : Option (List Char) := searchSuffix matchErrAt l

/-- Numeric value of a digit string (most significant first). -/
def natOfDigits (l : List Char) : Nat :=
  l.foldl (fun acc c => acc * 10 + (c.toNat - '0'.toNat)) 0

/-- Python's `float(...)` restricted to the shapes the captures can take
(`\d+` and `\d+\.\d+`); anything else is a `ValueError`, i.e. `none`. -/
def parseFloat? (l : List Char) : Option ℚ :=
  match l.dropWhile (fun c => c != '.') with
  | [] =>
    if !(l.takeWhile (fun c => c != '.')).isEmpty
        && (l.takeWhile (fun c => c != '.')).all Char.isDigit then
      some (natOfDigits (l.takeWhile (fun c => c != '.')))
    else none
  | '.' :: fracPart =>
    if !(l.takeWhile (fun c => c != '.')).isEmpty
        && (l.takeWhile (fun c => c != '.')).all Char.isDigit
        && !fracPart.isEmpty && fracPart.all Char.isDigit then
      some ((natOfDigits (l.takeWhile (fun c => c != '.')) : ℚ)
        + (natOfDigits fracPart : ℚ) / (10 : ℚ) ^ fracPart.length)
    else none
  | _ => none

/-- Result of `parse_progress`: a `str` (error), a `float` (percent), or
`None`. -/
inductive ParseResult where
  | error (msg : String)
  | percent (value : ℚ)
  | noSignal
deriving DecidableEq

/-- `"Login Failure" in output or "Invalid Password" in output`. -/
def hasAuthPhrase (l : List Char) : Bool :=
  containsSub ("Login Failure".toList) l || containsSub ("Invalid Password".toList) l

/-- `"Invalid App ID" in output`. -/
def hasInvalidAppId (l : List Char) : Bool := containsSub ("Invalid App ID".toList) l

/-- `"No space left on device" in output`. -/
def hasNoSpace (l : List Char) : Bool := containsSub ("No space left on device".toList) l

/-- `"ERROR" in output`. -/
def hasErrorMarker (l : List Char) : Bool := containsSub ("ERROR".toList) l

/-- The `for pattern in patterns` loop of `parse_progress`: each pattern in
the fixed order, first match wins; a capture `float(...)` cannot accept is
skipped (the `except ValueError: pass` path falls through to the next
pattern). -/
def extractPercent (l : List Char) : ParseResult :=
  match Option.bind (searchPat1 l) parseFloat? with
  | some v => ParseResult.percent v
  | none =>
    match Option.bind (searchPat2 l) parseFloat? with
    | some v => ParseResult.percent v
    | none =>
      match Option.bind (searchPat3 l) parseFloat? with
      | some v => ParseResult.percent v
      | none => ParseResult.noSignal

/-- `parse_progress` (src/app.py:101-131) over the character list of the
log text. -/
def parse_progressL (l : List Char) : ParseResult :=
  if hasAuthPhrase l then
    ParseResult.error "Authentication failed: Invalid username or password"
  else if hasInvalidAppId l then
    ParseResult.error "Invalid game ID"
  else if hasNoSpace l then
    ParseResult.error "Error: Insufficient disk space"
  else if hasErrorMarker l then
    match searchError l with
    | some m => ParseResult.error ("Error: " ++ String.mk m)
    | none => ParseResult.error "Download error occurred"
  else extractPercent l

/-- `parse_progress` (src/app.py:101-131). -/
def parse_progress (output : String) : ParseResult :=
  parse_progressL output.toList

/-- Matcher for `store\.steampowered\.com/app/(\d+)` anchored at the current
position. -/
def matchURLAt (l : List Char) : Option (List Char) :=
  (dropLit ("store.steampowered.com/app/".toList) l).bind fun r =>
    (takeDigits1 r).map fun p => p.1

def searchURL (l : List Char) : Option (List Char) := searchSuffix matchURLAt l

/-- Python's `str.isdigit` over ASCII: nonempty and all digits. -/
def pyIsdigitL (l : List Char) : Bool := !l.isEmpty && l.all Char.isDigit

def pyIsdigit (s : String) : Bool := pyIsdigitL s.toList

/-- `extract_game_id` (src/app.py:78-86) over the character list of the
input: `None` on the empty string; the URL regex's captured group when the
input starts with `"http"`; the input itself when it is purely numeric;
otherwise `None`. -/
def extract_game_idL (l : List Char) : Option (List Char) :=
  if l.isEmpty then none
  else if startsWithL ("http".toList) l then searchURL l
  else if pyIsdigitL l then some l
  else none

/-- `extract_game_id` (src/app.py:78-86). -/
def extract_game_id (input : String) : Option String :=
  Option.map String.mk (extract_game_idL input.toList)

/-- Python truthiness of the `game_id` argument (a string or `None`). -/
def truthyId (game_id : Option String) : Bool :=
  match game_id with
  | none => false
  | some s => !s.toList.isEmpty

/-- `validate_login` (src/app.py:89-98); returns `(valid, message)`. -/
def validate_login (username password : String) (anonymous : Bool)
    (game_id : Option String) : Bool × String :=
  if !truthyId game_id then (false, "Invalid Game ID or URL")
  else if anonymous then (true, "Proceeding with anonymous login")
  else if username.toList.isEmpty || password.toList.isEmpty then
    (false, "Username and password required for non-anonymous login")
  else (true, "Credentials provided")

/-- The fields of a yielded progress tuple that are functions of the inputs:
the slider value, the status text and the links text.  The elapsed-time
fields of the source are wall-clock strings and the remaining-time/file-size
fields are the constants `"Calculating..."` / `"N/A"`; they are omitted. -/
structure Snapshot where
  percent : ℚ
  status : String
  links : String
deriving DecidableEq

/-- Observable actions of `start_download`, in order. -/
inductive Event where
  | ensureDirs
  | truncateLog
  | spawn (cmd : String)
  | readLog (content : String)
  | yieldSnap (s : Snapshot)
  | terminate
deriving DecidableEq

/-- The shell command string built at src/app.py:142-143. -/
def buildCmd (steamcmdPath downloadDir game_id username password : String)
    (anonymous : Bool) : String :=
  let login_cmd :=
    if anonymous then "+login anonymous"
    else "+login " ++ username ++ " " ++ password
  steamcmdPath ++ " " ++ login_cmd ++ " +force_install_dir " ++ downloadDir
    ++ " +app_update " ++ game_id ++ " validate +quit"

def progressSnap (q : ℚ) : Snapshot := ⟨q, "Downloading...", ""⟩

def errorSnap (m : String) : Snapshot := ⟨0, m, ""⟩

/-- One poll iteration (src/app.py:152-162) after the read of content
`out`: an error string yields a terminal snapshot, terminates the process
and returns; a percentage yields a progress snapshot; `None` yields
nothing. -/
def loopStep (out : String) : ParseResult → List Event → List Event
  | ParseResult.error m, _ =>
    [Event.readLog out, Event.yieldSnap (errorSnap m), Event.terminate]
  | ParseResult.percent p, rest =>
    Event.readLog out :: Event.yieldSnap (progressSnap p) :: rest
  | ParseResult.noSignal, rest => Event.readLog out :: rest

/-- The polling loop (src/app.py:150-162): each poll while the process is
alive reads the whole log and classifies it.  `polls` is the sequence of
log contents read while the process stays alive. -/
def loopTrace : List String → List Event
  | [] => []
  | out :: rest => loopStep out (parse_progress out) (loopTrace rest)

def abortStep : ParseResult → Bool → Bool
  | ParseResult.error _, _ => true
  | ParseResult.percent _, rest => rest
  | ParseResult.noSignal, rest => rest

/-- Whether the loop returned through the error branch (so the completion
code at src/app.py:164-179 is never reached). -/
def loopAborted : List String → Bool
  | [] => false
  | out :: rest => abortStep (parse_progress out) (loopAborted rest)

def fileLink (publicURL f : String) : String := publicURL ++ "/downloads/" ++ f

/-- Python's `"\n".join(...)`. -/
def joinNL : List String → String
  | [] => ""
  | [a] => a
  | a :: b :: rest => a ++ "\n" ++ joinNL (b :: rest)

/-- The links text of the final snapshot (src/app.py:176,179):
`"\n".join(links[:20]) + ("\n...\n(more files available)" if len(links) > 20 else "")`. -/
def displayedLinks (publicURL : String) (files : List String) : String :=
  let links := if files.isEmpty then ["No files downloaded"]
               else files.map (fileLink publicURL)
  joinNL (links.take 20)
    ++ (if 20 < links.length then "\n...\n(more files available)" else "")

def completedSnap (publicURL : String) (files : List String) : Snapshot :=
  ⟨100, "Download completed", displayedLinks publicURL files⟩

/-- Module-level configuration of the source: the tool path, the download
directory and the public base URL. -/
structure Config where
  steamcmdPath : String
  downloadDir : String
  publicURL : String

/-- `start_download` (src/app.py:133-179) as a trace of observable events.
`polls` is the sequence of log contents read while the child process is
alive (the process exits when `polls` is exhausted); `files` is the list of
relative paths `os.walk` finds under the download directory after a normal
exit. -/
def start_download (cfg : Config) (polls : List String) (files : List String)
    (game_id username password : String) (anonymous : Bool) : List Event :=
  let gid := extract_game_id game_id
  let v := validate_login username password anonymous gid
  if v.1 then
    let cmd := buildCmd cfg.steamcmdPath cfg.downloadDir (gid.getD "")
      username password anonymous
    Event.ensureDirs :: Event.truncateLog :: Event.spawn cmd ::
      (loopTrace polls ++
        (if loopAborted polls then []
         else [Event.yieldSnap (completedSnap cfg.publicURL files)]))
  else
    [Event.yieldSnap ⟨0, v.2, ""⟩]

/-- The snapshots a trace yields, in order. -/
def snapshotsOf (t : List Event) : List Snapshot :=
  t.filterMap fun e =>
    match e with
    | Event.yieldSnap s => some s
    | _ => none

/-- The log reads a trace performs, in order. -/
def readsOf (t : List Event) : List String :=
  t.filterMap fun e =>
    match e with
    | Event.readLog c => some c
    | _ => none

/-! ## Helper lemmas -/

theorem takeDigits1_spec {l d r : List Char} (h : takeDigits1 l = some (d, r)) :
    d ≠ [] ∧ (∀ c ∈ d, c.isDigit) ∧ d ++ r = l := by
  unfold takeDigits1 at h
  by_cases he : (l.takeWhile Char.isDigit).isEmpty
  · simp [he] at h
  · simp only [he, Bool.false_eq_true, if_false, Option.some.injEq, Prod.mk.injEq] at h
    obtain ⟨hd, hr⟩ := h
    subst hd; subst hr
    refine ⟨?_, ?_, by apply List.takeWhile_append_dropWhile⟩
    · intro hnil
      rw [hnil] at he
      simp at he
    · intro c hc
      exact List.mem_takeWhile_imp hc


theorem searchSuffix_some_imp (m : List Char → Option (List Char))
    (P : List Char → Prop) (hm : ∀ l g, m l = some g → P g) :
    ∀ l g, searchSuffix m l = some g → P g := by
  intro l
  induction l with
  | nil => intro g h; exact hm [] g h
  | cons c cs ih =>
    intro g h
    simp only [searchSuffix] at h
    cases hmc : m (c :: cs) with
    | none => rw [hmc] at h; exact ih g h
    | some r =>
      rw [hmc] at h
      injection h with h'
      subst h'
      exact hm _ _ hmc

/-! ## Claims -/

/-- **C1.** Classification precedence is total and deterministic: an
authentication-failure phrase always wins, so a log containing both an auth
phrase and a percentage pattern classifies as the auth error, never as
progress; the error checks (auth, invalid id, disk space, generic ERROR) are
applied in that fixed order, and only if all fail is percentage extraction
attempted. -/
theorem parse_progress_error_precedence (s : String) :
    (hasAuthPhrase s.toList = true →
      parse_progress s = ParseResult.error "Authentication failed: Invalid username or password") ∧
    (hasAuthPhrase s.toList = false → hasInvalidAppId s.toList = true →
      parse_progress s = ParseResult.error "Invalid game ID") ∧
    (hasAuthPhrase s.toList = false → hasInvalidAppId s.toList = false →
      hasNoSpace s.toList = true →
      parse_progress s = ParseResult.error "Error: Insufficient disk space") ∧
    (hasAuthPhrase s.toList = false → hasInvalidAppId s.toList = false →
      hasNoSpace s.toList = false → hasErrorMarker s.toList = true →
      ∃ m, parse_progress s = ParseResult.error m) ∧
    (hasAuthPhrase s.toList = false → hasInvalidAppId s.toList = false →
      hasNoSpace s.toList = false → hasErrorMarker s.toList = false →
      parse_progress s = extractPercent s.toList) := by
  simp only [parse_progress]
  generalize s.toList = l
  refine ⟨fun h1 => ?_, fun h1 h2 => ?_, fun h1 h2 h3 => ?_,
    fun h1 h2 h3 h4 => ?_, fun h1 h2 h3 h4 => ?_⟩
  · simp [parse_progressL, h1]
  · simp [parse_progressL, h1, h2]
  · simp [parse_progressL, h1, h2, h3]
  · simp only [parse_progressL, h1, h2, h3, h4, Bool.false_eq_true, if_false, if_true]
    cases hE : searchError l with
    | none => exact ⟨_, rfl⟩
    | some m => exact ⟨_, rfl⟩
  · simp [parse_progressL, h1, h2, h3, h4]

/-- Witness for C1: a log containing both an auth-failure phrase and a
matching percentage pattern classifies as the auth error. -/
theorem parse_progress_error_precedence_app :
    hasAuthPhrase ("Login Failure Progress: 45.5%".toList) = true ∧
    searchPat1 ("Login Failure Progress: 45.5%".toList) ≠ none ∧
    parse_progress "Login Failure Progress: 45.5%" =
      ParseResult.error "Authentication failed: Invalid username or password" :=
  ⟨by decide, by decide,
    (parse_progress_error_precedence "Login Failure Progress: 45.5%").1 (by decide)⟩

/-- **C7.** Percentage extraction tries its three patterns in the fixed
order and returns the numeric value of the first one that matches; when no
pattern matches and no error phrase is present, the result is the no-signal
value (and the function is total by construction). -/
theorem extractPercent_fixed_order (s : String) :
    (∀ g v, searchPat1 s.toList = some g → parseFloat? g = some v →
      extractPercent s.toList = ParseResult.percent v) ∧
    (searchPat1 s.toList = none →
      ∀ g v, searchPat2 s.toList = some g → parseFloat? g = some v →
      extractPercent s.toList = ParseResult.percent v) ∧
    (searchPat1 s.toList = none → searchPat2 s.toList = none →
      ∀ g v, searchPat3 s.toList = some g → parseFloat? g = some v →
      extractPercent s.toList = ParseResult.percent v) ∧
    (searchPat1 s.toList = none → searchPat2 s.toList = none →
      searchPat3 s.toList = none →
      hasAuthPhrase s.toList = false → hasInvalidAppId s.toList = false →
      hasNoSpace s.toList = false → hasErrorMarker s.toList = false →
      parse_progress s = ParseResult.noSignal) := by
  simp only [parse_progress]
  generalize s.toList = l
  refine ⟨fun g v h1 h2 => ?_, fun h0 g v h1 h2 => ?_,
    fun h0 h0' g v h1 h2 => ?_, fun hp1 hp2 hp3 h1 h2 h3 h4 => ?_⟩
  · simp [extractPercent, h1, h2]
  · simp [extractPercent, h0, h1, h2]
  · simp [extractPercent, h0, h0', h1, h2]
  · simp [parse_progressL, extractPercent, hp1, hp2, hp3, h1, h2, h3, h4]

/-- Witness for C7: the first pattern matches `"Progress: 42.5%"` and its
captured value is extracted. -/
theorem extractPercent_fixed_order_app :
    searchPat1 ("Progress: 42.5%".toList) = some ['4', '2', '.', '5'] ∧
    parseFloat? ['4', '2', '.', '5'] = some ((42 : ℚ) + (5 : ℚ) / (10 : ℚ) ^ 1) ∧
    extractPercent ("Progress: 42.5%".toList) =
      ParseResult.percent ((42 : ℚ) + (5 : ℚ) / (10 : ℚ) ^ 1) :=
  ⟨by decide, rfl,
    (extractPercent_fixed_order "Progress: 42.5%").1 ['4', '2', '.', '5'] _ (by decide) rfl⟩

/-- **C9.** Classification is deterministic and idempotent in the log
content: `parse_progress` is a pure function of the log text, so two polls
that read an unchanged log classify identically. -/
theorem parse_progress_deterministic (s t : String) (h : s = t) :
    parse_progress s = parse_progress t := by
  rw [h]

/-- Witness for C9. -/
theorem parse_progress_deterministic_app :
    parse_progress "Progress: 42.5%" = parse_progress "Progress: 42.5%" :=
  parse_progress_deterministic "Progress: 42.5%" "Progress: 42.5%" rfl

theorem matchURLAt_some_ne_nil : ∀ l g, matchURLAt l = some g → g ≠ [] := by
  intro l g hm
  unfold matchURLAt at hm
  rw [Option.bind_eq_some] at hm
  obtain ⟨r, hdl, hm⟩ := hm
  rw [Option.map_eq_some'] at hm
  obtain ⟨pr, htd, hg⟩ := hm
  subst hg
  obtain ⟨d, rest⟩ := pr
  exact (takeDigits1_spec htd).1

theorem extract_game_idL_ne_nil {l d : List Char}
    (h : extract_game_idL l = some d) : d ≠ [] := by
  unfold extract_game_idL at h
  by_cases he : l.isEmpty = true
  · rw [if_pos he] at h
    exact Option.noConfusion h
  · rw [if_neg he] at h
    by_cases h1 : startsWithL ("http".toList) l = true
    · rw [if_pos h1] at h
      exact searchSuffix_some_imp matchURLAt (fun d => d ≠ [])
        matchURLAt_some_ne_nil l d h
    · rw [if_neg h1] at h
      by_cases h2 : pyIsdigitL l = true
      · rw [if_pos h2] at h
        injection h with h'
        subst h'
        rw [pyIsdigitL, Bool.and_eq_true, Bool.not_eq_true'] at h2
        intro hnil
        rw [hnil] at h2
        exact absurd h2.1 (by simp)
      · rw [if_neg h2] at h
        exact Option.noConfusion h

theorem extract_game_id_toList_ne_nil {g a : String}
    (h : extract_game_id g = some a) : a.toList ≠ [] := by
  unfold extract_game_id at h
  cases hu : extract_game_idL g.toList with
  | none => rw [hu] at h; exact Option.noConfusion h
  | some d =>
    rw [hu] at h
    injection h with h'
    subst h'
    exact extract_game_idL_ne_nil hu

/-- **C5.** `validate_login` accepts exactly the requests with a present
identifier whose credentials are either anonymous or both non-empty: it
rejects every request whose identifier extraction yielded none, and every
non-anonymous request with an empty username or password. -/
theorem validate_login_accepts_iff (username password game_id : String)
    (anonymous : Bool) :
    (validate_login username password anonymous (extract_game_id game_id)).1 = true ↔
      (extract_game_id game_id ≠ none ∧
        (anonymous = true ∨ (username.toList ≠ [] ∧ password.toList ≠ []))) := by
  cases hg : extract_game_id game_id with
  | none => simp [validate_login, truthyId]
  | some a =>
    have ha : a.toList ≠ [] := extract_game_id_toList_ne_nil hg
    have htr : (!truthyId (some a)) = false := by
      show (!(!a.toList.isEmpty)) = false
      rw [Bool.not_eq_false', Bool.not_eq_true', List.isEmpty_eq_false]
      exact ha
    rw [validate_login, if_neg (by rw [htr]; exact Bool.false_ne_true)]
    by_cases hanon : anonymous = true
    · rw [if_pos hanon]
      exact iff_of_true rfl ⟨by simp, Or.inl hanon⟩
    · rw [if_neg hanon]
      by_cases hup : (username.toList.isEmpty || password.toList.isEmpty) = true
      · rw [if_pos hup]
        rw [Bool.or_eq_true, List.isEmpty_eq_true, List.isEmpty_eq_true] at hup
        refine iff_of_false (by simp) ?_
        intro hc
        rcases hc.2 with hc2 | hc2
        · exact hanon hc2
        · rcases hup with h' | h'
          · exact hc2.1 h'
          · exact hc2.2 h'
      · rw [if_neg hup]
        rw [Bool.or_eq_true, List.isEmpty_eq_true, List.isEmpty_eq_true] at hup
        push_neg at hup
        exact iff_of_true rfl ⟨by simp, Or.inr hup⟩

/-- Witness for C5: an anonymous request with identifier `"570"` is
accepted. -/
theorem validate_login_accepts_iff_app :
    (validate_login "" "" true (extract_game_id "570")).1 = true :=
  (validate_login_accepts_iff "" "" "570" true).mpr (by decide)

/-- **C6.** Validation failure is atomic and pre-spawn: when validation
fails, `start_download` emits exactly one snapshot carrying the validation
message and performs no other observable action — no directory creation, no
log truncation, no spawn, no log read, and no polling loop. -/
theorem start_download_validation_short_circuit (cfg : Config)
    (polls files : List String) (game_id username password : String)
    (anonymous : Bool)
    (h : (validate_login username password anonymous (extract_game_id game_id)).1 = false) :
    start_download cfg polls files game_id username password anonymous =
      [Event.yieldSnap ⟨0,
        (validate_login username password anonymous (extract_game_id game_id)).2, ""⟩] := by
  simp [start_download, h]

/-- Witness for C6: a request with an unextractable identifier yields
exactly the validation snapshot. -/
theorem start_download_validation_short_circuit_app :
    (validate_login "" "" true (extract_game_id "not a game")).1 = false ∧
    start_download ⟨"sc", "dd", "http://u"⟩ ["Progress: 42.5%"] [] "not a game" "" "" true =
      [Event.yieldSnap ⟨0, "Invalid Game ID or URL", ""⟩] :=
  ⟨by decide,
    (start_download_validation_short_circuit ⟨"sc", "dd", "http://u"⟩
      ["Progress: 42.5%"] [] "not a game" "" "" true (by decide)).trans (by decide)⟩

/-- **C2 (counterexample).** The claim says every input containing the
storefront URL pattern yields the captured numeric group, but the code only
applies the URL regex to inputs that start with `"http"`: the input
`"store.steampowered.com/app/570"` matches the pattern yet extraction
yields no identifier. -/
theorem extract_game_id_pattern_without_http :
    searchURL ("store.steampowered.com/app/570".toList) = some ['5', '7', '0'] ∧
    extract_game_id "store.steampowered.com/app/570" = none :=
  ⟨by decide, by decide⟩

/-- **C2 (amended).** Identifier extraction is a total trichotomy gated on
the `"http"` prefix: for inputs starting with `"http"`, extraction yields
the URL pattern's captured numeric group if the pattern matches and nothing
otherwise; purely numeric inputs are returned unchanged; every other input
(including the empty string and pattern-containing strings that do not
start with `"http"`) yields no identifier. -/
theorem extract_game_id_trichotomy (s : String) :
    (startsWithL ("http".toList) s.toList = true →
      ∀ d, searchURL s.toList = some d → extract_game_id s = some (String.mk d)) ∧
    (startsWithL ("http".toList) s.toList = true → searchURL s.toList = none →
      extract_game_id s = none) ∧
    (startsWithL ("http".toList) s.toList = false → pyIsdigit s = true →
      extract_game_id s = some s) ∧
    (startsWithL ("http".toList) s.toList = false → pyIsdigit s = false →
      extract_game_id s = none) := by
  refine ⟨fun h1 d hd => ?_, fun h1 hd => ?_, fun h1 h2 => ?_, fun h1 h2 => ?_⟩
  · have hne : s.toList.isEmpty = false := by
      cases hl : s.toList with
      | nil => rw [hl] at h1; exact absurd h1 (by decide)
      | cons a as => rfl
    show Option.map String.mk (extract_game_idL s.toList) = some (String.mk d)
    rw [extract_game_idL, if_neg (by rw [hne]; exact Bool.false_ne_true),
      if_pos h1, hd]
    rfl
  · have hne : s.toList.isEmpty = false := by
      cases hl : s.toList with
      | nil => rw [hl] at h1; exact absurd h1 (by decide)
      | cons a as => rfl
    show Option.map String.mk (extract_game_idL s.toList) = none
    rw [extract_game_idL, if_neg (by rw [hne]; exact Bool.false_ne_true),
      if_pos h1, hd]
    rfl
  · have h2' : pyIsdigitL s.toList = true := h2
    have hne : s.toList.isEmpty = false := by
      have hx := h2'
      rw [pyIsdigitL, Bool.and_eq_true, Bool.not_eq_true'] at hx
      exact hx.1
    show Option.map String.mk (extract_game_idL s.toList) = some s
    rw [extract_game_idL, if_neg (by rw [hne]; exact Bool.false_ne_true),
      if_neg (by rw [h1]; exact Bool.false_ne_true), if_pos h2']
    rfl
  · have hpl : pyIsdigitL s.toList = false := h2
    by_cases hne : s.toList.isEmpty = true
    · show Option.map String.mk (extract_game_idL s.toList) = none
      rw [extract_game_idL, if_pos hne]
      rfl
    · show Option.map String.mk (extract_game_idL s.toList) = none
      rw [extract_game_idL, if_neg hne,
        if_neg (by rw [h1]; exact Bool.false_ne_true),
        if_neg (by rw [hpl]; exact Bool.false_ne_true)]
      rfl

theorem loopTrace_no_error {polls : List String}
    (h : ∀ p ∈ polls, ∀ m, parse_progress p ≠ ParseResult.error m) :
    loopAborted polls = false ∧ readsOf (loopTrace polls) = polls := by
  induction polls with
  | nil => exact ⟨rfl, rfl⟩
  | cons out rest ih =>
    have hout := h out (List.mem_cons_self _ _)
    have hrest : ∀ p ∈ rest, ∀ m, parse_progress p ≠ ParseResult.error m :=
      fun p hp => h p (List.mem_cons_of_mem _ hp)
    obtain ⟨ih1, ih2⟩ := ih hrest
    cases hpo : parse_progress out with
    | error m => exact absurd hpo (hout m)
    | percent q =>
      refine ⟨?_, ?_⟩
      · rw [loopAborted, hpo]
        exact ih1
      · rw [loopTrace, hpo]
        simp only [loopStep]
        simp [readsOf, List.filterMap_cons] at ih2 ⊢
        exact ih2
    | noSignal =>
      refine ⟨?_, ?_⟩
      · rw [loopAborted, hpo]
        exact ih1
      · rw [loopTrace, hpo]
        simp only [loopStep]
        simp [readsOf, List.filterMap_cons] at ih2 ⊢
        exact ih2

theorem loopTrace_append_error {pre post : List String} {bad m : String}
    (hpre : ∀ p ∈ pre, ∀ m', parse_progress p ≠ ParseResult.error m')
    (hbad : parse_progress bad = ParseResult.error m) :
    loopTrace (pre ++ bad :: post) =
      loopTrace pre ++
        [Event.readLog bad, Event.yieldSnap (errorSnap m), Event.terminate] ∧
    loopAborted (pre ++ bad :: post) = true := by
  induction pre with
  | nil =>
    constructor
    · simp only [List.nil_append, loopTrace, hbad, loopStep]
    · simp only [List.nil_append, loopAborted, hbad, abortStep]
  | cons out rest ih =>
    have hout := hpre out (List.mem_cons_self _ _)
    have hrest : ∀ p ∈ rest, ∀ m', parse_progress p ≠ ParseResult.error m' :=
      fun p hp => hpre p (List.mem_cons_of_mem _ hp)
    obtain ⟨ih1, ih2⟩ := ih hrest
    cases hpo : parse_progress out with
    | error m' => exact absurd hpo (hout m')
    | percent q =>
      constructor
      · rw [List.cons_append, loopTrace, hpo, loopTrace, hpo, ih1]
        simp [loopStep]
      · rw [List.cons_append, loopAborted, hpo, ih2]
        rfl
    | noSignal =>
      constructor
      · rw [List.cons_append, loopTrace, hpo, loopTrace, hpo, ih1]
        simp [loopStep]
      · rw [List.cons_append, loopAborted, hpo, ih2]
        rfl

theorem snapshotsOf_monitor_shape (cmd : String) (t : List Event) (rest : List Event) :
    snapshotsOf (Event.ensureDirs :: Event.truncateLog :: Event.spawn cmd :: (t ++ rest)) =
      snapshotsOf t ++ snapshotsOf rest := by
  simp [snapshotsOf, List.filterMap_cons, List.filterMap_append]

theorem readsOf_monitor_shape (cmd : String) (t : List Event) (rest : List Event) :
    readsOf (Event.ensureDirs :: Event.truncateLog :: Event.spawn cmd :: (t ++ rest)) =
      readsOf t ++ readsOf rest := by
  simp [readsOf, List.filterMap_cons, List.filterMap_append]

/-- **C4.** Any terminal classification stops the loop: once a poll's log
content classifies as an error string, the loop yields that terminal
snapshot, kills the child process, and performs no further reads — the
events after the bad poll are exactly the terminal yield and the
termination, whatever further log contents might have followed. -/
theorem start_download_terminal_stops (cfg : Config)
    (pre post files : List String) (bad game_id username password m : String)
    (anonymous : Bool)
    (hv : (validate_login username password anonymous (extract_game_id game_id)).1 = true)
    (hpre : ∀ p ∈ pre, ∀ m', parse_progress p ≠ ParseResult.error m')
    (hbad : parse_progress bad = ParseResult.error m) :
    start_download cfg (pre ++ bad :: post) files game_id username password anonymous =
      Event.ensureDirs :: Event.truncateLog ::
        Event.spawn (buildCmd cfg.steamcmdPath cfg.downloadDir
          ((extract_game_id game_id).getD "") username password anonymous) ::
        (loopTrace pre ++
          [Event.readLog bad, Event.yieldSnap (errorSnap m), Event.terminate]) ∧
    readsOf (start_download cfg (pre ++ bad :: post) files game_id username password
      anonymous) = pre ++ [bad] ∧
    (snapshotsOf (start_download cfg (pre ++ bad :: post) files game_id username password
      anonymous)).getLast? = some (errorSnap m) := by
  obtain ⟨hT, hA⟩ := loopTrace_append_error hpre hbad
  have htrace : start_download cfg (pre ++ bad :: post) files game_id username password
      anonymous =
      Event.ensureDirs :: Event.truncateLog ::
        Event.spawn (buildCmd cfg.steamcmdPath cfg.downloadDir
          ((extract_game_id game_id).getD "") username password anonymous) ::
        (loopTrace pre ++
          [Event.readLog bad, Event.yieldSnap (errorSnap m), Event.terminate]) := by
    simp only [start_download]
    rw [if_pos hv, hT, hA]
    simp
  refine ⟨htrace, ?_, ?_⟩
  · rw [htrace, readsOf_monitor_shape, (loopTrace_no_error hpre).2]
    rfl
  · rw [htrace, snapshotsOf_monitor_shape]
    have : snapshotsOf
        [Event.readLog bad, Event.yieldSnap (errorSnap m), Event.terminate] =
        [errorSnap m] := rfl
    rw [this]
    exact List.getLast?_concat _

/-- Witness for C4: the spec's disk-space scenario, with one healthy poll
before the fatal one and one poll that is never read after it. -/
theorem start_download_terminal_stops_app :
    (validate_login "" "" true (extract_game_id "570")).1 = true ∧
    parse_progress "ERROR: No space left on device" =
      ParseResult.error "Error: Insufficient disk space" ∧
    readsOf (start_download ⟨"sc", "dd", "http://u"⟩
      (["Progress: 10.0%"] ++ "ERROR: No space left on device" :: ["Progress: 99.0%"])
      [] "570" "" "" true) = ["Progress: 10.0%"] ++ ["ERROR: No space left on device"] :=
  ⟨by decide, by decide,
    (start_download_terminal_stops ⟨"sc", "dd", "http://u"⟩
      ["Progress: 10.0%"] ["Progress: 99.0%"] [] "ERROR: No space left on device"
      "570" "" "" "Error: Insufficient disk space" true (by decide)
      (by intro p hp m'
          simp only [List.mem_singleton] at hp
          subst hp
          intro hc
          rw [show parse_progress "Progress: 10.0%" =
            ParseResult.percent ((10 : ℚ) + (0 : ℚ) / (10 : ℚ) ^ 1) from rfl] at hc
          exact ParseResult.noConfusion hc)
      (by decide)).2.1⟩

/-- **C3.** On normal exit with no terminal error, the final snapshot is
the Completed snapshot: percent 100, status `"Download completed"`, one
link `{publicBase}/downloads/{relativePath}` per file (display capped at 20
entries with a truncation marker when more exist); with exactly three files
the links text is exactly the three links. -/
theorem start_download_completion (cfg : Config) (polls files : List String)
    (game_id username password : String) (anonymous : Bool)
    (hv : (validate_login username password anonymous (extract_game_id game_id)).1 = true)
    (hpolls : ∀ p ∈ polls, ∀ m, parse_progress p ≠ ParseResult.error m) :
    (start_download cfg polls files game_id username password anonymous).getLast? =
      some (Event.yieldSnap (completedSnap cfg.publicURL files)) ∧
    (snapshotsOf (start_download cfg polls files game_id username password
      anonymous)).getLast? = some (completedSnap cfg.publicURL files) ∧
    (∀ f1 f2 f3, files = [f1, f2, f3] →
      completedSnap cfg.publicURL files = ⟨100, "Download completed",
        fileLink cfg.publicURL f1 ++ "\n" ++
          (fileLink cfg.publicURL f2 ++ "\n" ++ fileLink cfg.publicURL f3)⟩) ∧
    (files ≠ [] → files.length ≤ 20 →
      displayedLinks cfg.publicURL files =
        joinNL (files.map (fileLink cfg.publicURL))) ∧
    (20 < files.length →
      displayedLinks cfg.publicURL files =
        joinNL ((files.map (fileLink cfg.publicURL)).take 20)
          ++ "\n...\n(more files available)") := by
  have hab : loopAborted polls = false := (loopTrace_no_error hpolls).1
  have htrace : start_download cfg polls files game_id username password anonymous =
      Event.ensureDirs :: Event.truncateLog ::
        Event.spawn (buildCmd cfg.steamcmdPath cfg.downloadDir
          ((extract_game_id game_id).getD "") username password anonymous) ::
        (loopTrace polls ++
          [Event.yieldSnap (completedSnap cfg.publicURL files)]) := by
    simp only [start_download]
    rw [if_pos hv, hab]
    simp
  refine ⟨?_, ?_, ?_, ?_, ?_⟩
  · rw [htrace]
    rw [show Event.ensureDirs :: Event.truncateLog ::
        Event.spawn (buildCmd cfg.steamcmdPath cfg.downloadDir
          ((extract_game_id game_id).getD "") username password anonymous) ::
        (loopTrace polls ++
          [Event.yieldSnap (completedSnap cfg.publicURL files)]) =
      (Event.ensureDirs :: Event.truncateLog ::
        Event.spawn (buildCmd cfg.steamcmdPath cfg.downloadDir
          ((extract_game_id game_id).getD "") username password anonymous) ::
        loopTrace polls) ++
          [Event.yieldSnap (completedSnap cfg.publicURL files)] by simp]
    exact List.getLast?_concat _
  · rw [htrace, snapshotsOf_monitor_shape]
    exact List.getLast?_concat _
  · intro f1 f2 f3 hf
    subst hf
    rw [completedSnap, displayedLinks]
    simp [joinNL]
  · intro hne hlen
    rw [displayedLinks]
    have hmapne : (files.map (fileLink cfg.publicURL)).isEmpty = false := by
      rw [List.isEmpty_eq_false]
      simp [hne]
    have hfe : files.isEmpty = false := by
      rw [List.isEmpty_eq_false]
      exact hne
    rw [hfe]
    simp only [Bool.false_eq_true, if_false]
    rw [List.take_of_length_le (by simpa using hlen)]
    rw [if_neg (by simp; omega)]
    simp
  · intro hlen
    rw [displayedLinks]
    have hfe : files.isEmpty = false := by
      rw [List.isEmpty_eq_false]
      intro hc
      subst hc
      simp at hlen
    rw [hfe]
    simp only [Bool.false_eq_true, if_false]
    rw [if_pos (by simpa using hlen)]

/-- Witness for C3: the spec's three-file scenario. -/
theorem start_download_completion_app :
    (validate_login "" "" true (extract_game_id "570")).1 = true ∧
    (snapshotsOf (start_download ⟨"sc", "dd", "http://u"⟩ []
      ["a.bin", "sub/b.bin", "c.txt"] "570" "" "" true)).getLast? =
      some (completedSnap "http://u" ["a.bin", "sub/b.bin", "c.txt"]) ∧
    completedSnap "http://u" ["a.bin", "sub/b.bin", "c.txt"] =
      ⟨100, "Download completed",
        "http://u/downloads/a.bin" ++ "\n" ++
          ("http://u/downloads/sub/b.bin" ++ "\n" ++ "http://u/downloads/c.txt")⟩ := by
  have h := start_download_completion ⟨"sc", "dd", "http://u"⟩ []
    ["a.bin", "sub/b.bin", "c.txt"] "570" "" "" true (by decide) (by simp)
  exact ⟨by decide, h.2.1,
    (h.2.2.1 "a.bin" "sub/b.bin" "c.txt" rfl).trans (by decide)⟩

theorem parseFloat?_nonneg {g : List Char} {v : ℚ} (h : parseFloat? g = some v) :
    0 ≤ v := by
  unfold parseFloat? at h
  split at h
  · split at h
    · injection h with h'
      subst h'
      exact Nat.cast_nonneg _
    · exact Option.noConfusion h
  · split at h
    · injection h with h'
      subst h'
      positivity
    · exact Option.noConfusion h
  · exact Option.noConfusion h

theorem extractPercent_nonneg {l : List Char} {v : ℚ}
    (h : extractPercent l = ParseResult.percent v) : 0 ≤ v := by
  unfold extractPercent at h
  cases h1 : (searchPat1 l).bind parseFloat? with
  | some w =>
    rw [h1] at h
    injection h with h'
    subst h'
    obtain ⟨g, _, hpf⟩ := Option.bind_eq_some.mp h1
    exact parseFloat?_nonneg hpf
  | none =>
    rw [h1] at h
    cases h2 : (searchPat2 l).bind parseFloat? with
    | some w =>
      rw [h2] at h
      injection h with h'
      subst h'
      obtain ⟨g, _, hpf⟩ := Option.bind_eq_some.mp h2
      exact parseFloat?_nonneg hpf
    | none =>
      rw [h2] at h
      cases h3 : (searchPat3 l).bind parseFloat? with
      | some w =>
        rw [h3] at h
        injection h with h'
        subst h'
        obtain ⟨g, _, hpf⟩ := Option.bind_eq_some.mp h3
        exact parseFloat?_nonneg hpf
      | none =>
        rw [h3] at h
        exact ParseResult.noConfusion h

theorem parse_progress_percent_nonneg {s : String} {v : ℚ}
    (h : parse_progress s = ParseResult.percent v) : 0 ≤ v := by
  unfold parse_progress parse_progressL at h
  split at h
  · exact ParseResult.noConfusion h
  · split at h
    · exact ParseResult.noConfusion h
    · split at h
      · exact ParseResult.noConfusion h
      · split at h
        · cases hE : searchError s.toList with
          | some m => rw [hE] at h; exact ParseResult.noConfusion h
          | none => rw [hE] at h; exact ParseResult.noConfusion h
        · exact extractPercent_nonneg h

theorem loopTrace_snapshots_nonneg (polls : List String) :
    ∀ s ∈ snapshotsOf (loopTrace polls), 0 ≤ s.percent := by
  induction polls with
  | nil =>
    intro s hs
    exact absurd hs (by simp [loopTrace, snapshotsOf])
  | cons out rest ih =>
    intro s hs
    rw [loopTrace] at hs
    cases hpo : parse_progress out with
    | error m =>
      rw [hpo] at hs
      simp only [loopStep] at hs
      rw [show snapshotsOf
          [Event.readLog out, Event.yieldSnap (errorSnap m), Event.terminate] =
          [errorSnap m] from rfl] at hs
      rw [List.mem_singleton.mp hs]
      exact le_refl 0
    | percent q =>
      rw [hpo] at hs
      simp only [loopStep] at hs
      rw [show snapshotsOf (Event.readLog out ::
          Event.yieldSnap (progressSnap q) :: loopTrace rest) =
          progressSnap q :: snapshotsOf (loopTrace rest) from rfl] at hs
      rcases List.mem_cons.mp hs with h | h
      · rw [h]
        exact parse_progress_percent_nonneg hpo
      · exact ih s h
    | noSignal =>
      rw [hpo] at hs
      simp only [loopStep] at hs
      rw [show snapshotsOf (Event.readLog out :: loopTrace rest) =
          snapshotsOf (loopTrace rest) from rfl] at hs
      exact ih s hs

/-- **C8 (counterexample).** The claim bounds every emitted percentage by
100, but `parse_progress` performs no clamping: the log `"250% (1/2)"`
matches the third pattern and the loop emits a snapshot with percent 250. -/
theorem snapshot_percent_above_100 :
    Snapshot.mk 250 "Downloading..." "" ∈
      snapshotsOf (start_download ⟨"sc", "dd", "http://u"⟩ ["250% (1/2)"] []
        "570" "" "" true) ∧
    ¬ ((250 : ℚ) ≤ 100) :=
  ⟨by decide, by decide⟩

/-- **C8 (amended).** Every emitted snapshot's percent is a nonnegative
rational (the patterns capture unsigned digit strings, so no upper bound of
100 is enforced); the completion snapshot uses exactly 100 and the
validation-failure and terminal-error snapshots use exactly 0. -/
theorem snapshots_percent_nonneg (cfg : Config) (polls files : List String)
    (game_id username password : String) (anonymous : Bool) :
    (∀ s ∈ snapshotsOf (start_download cfg polls files game_id username password
      anonymous), 0 ≤ s.percent) ∧
    (completedSnap cfg.publicURL files).percent = 100 ∧
    (∀ m, (errorSnap m).percent = 0) := by
  refine ⟨?_, rfl, fun m => rfl⟩
  intro s hs
  simp only [start_download] at hs
  by_cases hv : (validate_login username password anonymous
      (extract_game_id game_id)).1 = true
  · rw [if_pos hv] at hs
    rw [show ∀ t : List Event, Event.ensureDirs :: Event.truncateLog ::
        Event.spawn (buildCmd cfg.steamcmdPath cfg.downloadDir
          ((extract_game_id game_id).getD "") username password anonymous) :: t =
        [Event.ensureDirs, Event.truncateLog,
          Event.spawn (buildCmd cfg.steamcmdPath cfg.downloadDir
            ((extract_game_id game_id).getD "") username password anonymous)] ++ t
      from fun t => rfl] at hs
    rw [show snapshotsOf ([Event.ensureDirs, Event.truncateLog,
        Event.spawn (buildCmd cfg.steamcmdPath cfg.downloadDir
          ((extract_game_id game_id).getD "") username password anonymous)] ++
        (loopTrace polls ++
          (if loopAborted polls then []
           else [Event.yieldSnap (completedSnap cfg.publicURL files)]))) =
        snapshotsOf (loopTrace polls) ++
          snapshotsOf (if loopAborted polls then []
            else [Event.yieldSnap (completedSnap cfg.publicURL files)]) from by
      simp [snapshotsOf, List.filterMap_append, List.filterMap_cons]] at hs
    rcases List.mem_append.mp hs with h | h
    · exact loopTrace_snapshots_nonneg polls s h
    · by_cases hab : loopAborted polls = true
      · rw [if_pos hab] at h
        exact absurd h (by simp [snapshotsOf])
      · rw [if_neg hab] at h
        rw [show snapshotsOf [Event.yieldSnap (completedSnap cfg.publicURL files)] =
          [completedSnap cfg.publicURL files] from rfl] at h
        rw [List.mem_singleton.mp h]
        norm_num [completedSnap]
  · rw [if_neg hv] at hs
    rw [show snapshotsOf [Event.yieldSnap ⟨0,
        (validate_login username password anonymous (extract_game_id game_id)).2, ""⟩] =
        [⟨0, (validate_login username password anonymous
          (extract_game_id game_id)).2, ""⟩] from rfl] at hs
    rw [List.mem_singleton.mp hs]

/-- Witness for C8 (amended): a one-poll run yields a snapshot whose
percent the theorem bounds below by zero. -/
theorem snapshots_percent_nonneg_app :
    Snapshot.mk 42 "Downloading..." "" ∈
      snapshotsOf (start_download ⟨"sc", "dd", "http://u"⟩ ["42% (1/2)"] []
        "570" "" "" true) ∧
    (0 : ℚ) ≤ (Snapshot.mk 42 "Downloading..." "").percent :=
  ⟨by decide,
    (snapshots_percent_nonneg ⟨"sc", "dd", "http://u"⟩ ["42% (1/2)"] []
      "570" "" "" true).1 (Snapshot.mk 42 "Downloading..." "") (by decide)⟩

/-- A decimal-fraction percentage indication (`\d\.\d+%`) occurs at the
head of the list. -/
def decimalPercentAt : List Char → Bool
  | x :: '.' :: rest =>
    x.isDigit && !(rest.takeWhile Char.isDigit).isEmpty &&
      (match rest.dropWhile Char.isDigit with
       | '%' :: _ => true
       | _ => false)
  | _ => false

/-- A decimal-fraction percentage indication occurs somewhere. -/
def hasDecimalPercent : List Char → Bool
  | [] => false
  | c :: cs => decimalPercentAt (c :: cs) || hasDecimalPercent cs

/-- An integer percentage followed by a `(n/m)` counter (`\d% \(\d+/\d+\)`)
occurs at the head of the list. -/
def percentCounterAt : List Char → Bool
  | x :: '%' :: ' ' :: '(' :: rest =>
    x.isDigit && !(rest.takeWhile Char.isDigit).isEmpty &&
      (match rest.dropWhile Char.isDigit with
       | '/' :: rest2 =>
         !(rest2.takeWhile Char.isDigit).isEmpty &&
           (match rest2.dropWhile Char.isDigit with
            | ')' :: _ => true
            | _ => false)
       | _ => false)
  | _ => false

/-- An integer percentage with a `(n/m)` counter occurs somewhere. -/
def hasPercentCounter : List Char → Bool
  | [] => false
  | c :: cs => percentCounterAt (c :: cs) || hasPercentCounter cs

theorem hasDecimalPercent_append {u r : List Char}
    (h : hasDecimalPercent r = true) : hasDecimalPercent (u ++ r) = true := by
  induction u with
  | nil => exact h
  | cons c cs ih => rw [List.cons_append, hasDecimalPercent, ih, Bool.or_true]

theorem hasPercentCounter_append {u r : List Char}
    (h : hasPercentCounter r = true) : hasPercentCounter (u ++ r) = true := by
  induction u with
  | nil => exact h
  | cons c cs ih => rw [List.cons_append, hasPercentCounter, ih, Bool.or_true]

theorem takeWhile_all_append {p : Char → Bool} {d : List Char}
    (hd : ∀ c ∈ d, p c = true) {x : Char} (hx : p x = false) (r : List Char) :
    (d ++ x :: r).takeWhile p = d ∧ (d ++ x :: r).dropWhile p = x :: r := by
  induction d with
  | nil => simp [List.takeWhile_cons, List.dropWhile_cons, hx]
  | cons a as ih =>
    have ha := hd a (List.mem_cons_self _ _)
    have hrest : ∀ c ∈ as, p c = true := fun c hc => hd c (List.mem_cons_of_mem _ hc)
    obtain ⟨ih1, ih2⟩ := ih hrest
    constructor
    · rw [List.cons_append, List.takeWhile_cons, ha]
      simp [ih1]
    · rw [List.cons_append, List.dropWhile_cons, ha]
      simp [ih2]

theorem dropLit_eq (p : List Char) : ∀ {l r : List Char}, dropLit p l = some r →
    l = p ++ r := by
  induction p with
  | nil =>
    intro l r h
    have h' : l = r := Option.some.inj h
    subst h'
    rfl
  | cons a as ih =>
    intro l r h
    cases l with
    | nil => exact Option.noConfusion h
    | cons b bs =>
      rw [dropLit] at h
      by_cases hab : (a == b) = true
      · rw [if_pos hab] at h
        have hb : a = b := beq_iff_eq.mp hab
        subst hb
        rw [List.cons_append, ← ih h]
      · rw [if_neg hab] at h
        exact Option.noConfusion h

theorem expectChar_eq {c : Char} : ∀ {l r : List Char}, expectChar c l = some r →
    l = c :: r := by
  intro l r h
  cases l with
  | nil => exact Option.noConfusion h
  | cons x xs =>
    rw [expectChar] at h
    by_cases hx : (x == c) = true
    · rw [if_pos hx] at h
      injection h with h'
      rw [beq_iff_eq.mp hx, h']
    · rw [if_neg hx] at h
      exact Option.noConfusion h

theorem decimalPercentAt_build {x : Char} (hx : x.isDigit = true) {d : List Char}
    (hd : d ≠ []) (hdig : ∀ c ∈ d, c.isDigit = true) (r : List Char) :
    decimalPercentAt (x :: '.' :: (d ++ '%' :: r)) = true := by
  obtain ⟨ht, hw⟩ := takeWhile_all_append hdig
    (show ('%').isDigit = false from rfl) r
  simp [decimalPercentAt, hx, ht, hw, List.isEmpty_eq_false.mpr hd]

theorem percentCounterAt_build {x : Char} (hx : x.isDigit = true)
    {d2 d3 : List Char} (h2ne : d2 ≠ []) (h2dig : ∀ c ∈ d2, c.isDigit = true)
    (h3ne : d3 ≠ []) (h3dig : ∀ c ∈ d3, c.isDigit = true) (r : List Char) :
    percentCounterAt (x :: '%' :: ' ' :: '(' :: (d2 ++ '/' :: (d3 ++ ')' :: r))) =
      true := by
  obtain ⟨ht2, hw2⟩ := takeWhile_all_append h2dig
    (show ('/').isDigit = false from rfl) (d3 ++ ')' :: r)
  obtain ⟨ht3, hw3⟩ := takeWhile_all_append h3dig
    (show (')').isDigit = false from rfl) r
  simp [percentCounterAt, hx, ht2, hw2, ht3, hw3,
    List.isEmpty_eq_false.mpr h2ne, List.isEmpty_eq_false.mpr h3ne]

theorem hasDecimalPercent_of_at {l : List Char} (h : decimalPercentAt l = true) :
    hasDecimalPercent l = true := by
  cases l with
  | nil => simp [decimalPercentAt] at h
  | cons c cs => rw [hasDecimalPercent, h, Bool.true_or]

theorem hasPercentCounter_of_at {l : List Char} (h : percentCounterAt l = true) :
    hasPercentCounter l = true := by
  cases l with
  | nil => simp [percentCounterAt] at h
  | cons c cs => rw [hasPercentCounter, h, Bool.true_or]

theorem matchPat1At_some {l g : List Char} (h : matchPat1At l = some g) :
    hasDecimalPercent l = true := by
  unfold matchPat1At at h
  rw [Option.bind_eq_some] at h
  obtain ⟨r, hdl, h⟩ := h
  rw [Option.bind_eq_some] at h
  obtain ⟨p1, hd1, h⟩ := h
  rw [Option.bind_eq_some] at h
  obtain ⟨r2, hdot, h⟩ := h
  rw [Option.bind_eq_some] at h
  obtain ⟨p2, hd2, h⟩ := h
  rw [Option.map_eq_some'] at h
  obtain ⟨r3, hpcent, _⟩ := h
  obtain ⟨hd1ne, hd1dig, hd1eq⟩ := takeDigits1_spec hd1
  obtain ⟨hd2ne, hd2dig, hd2eq⟩ := takeDigits1_spec hd2
  have hdoteq : p1.2 = '.' :: r2 := expectChar_eq hdot
  have hpceq : p2.2 = '%' :: r3 := expectChar_eq hpcent
  obtain ⟨d1i, x, hx⟩ : ∃ d1i x, p1.1 = d1i ++ [x] :=
    ⟨p1.1.dropLast, p1.1.getLast hd1ne, (List.dropLast_append_getLast hd1ne).symm⟩
  have hxdig : x.isDigit = true := hd1dig x (by rw [hx]; simp)
  have hat : decimalPercentAt (x :: '.' :: (p2.1 ++ '%' :: r3)) = true :=
    decimalPercentAt_build hxdig hd2ne hd2dig r3
  have hshape : l = ("Progress: ".toList ++ d1i) ++
      (x :: '.' :: (p2.1 ++ '%' :: r3)) := by
    rw [dropLit_eq _ hdl, ← hd1eq, hdoteq, ← hd2eq, hpceq, hx]
    simp [List.append_assoc]
  rw [hshape]
  exact hasDecimalPercent_append (hasDecimalPercent_of_at hat)

theorem matchPat2At_some {l g : List Char} (h : matchPat2At l = some g) :
    hasDecimalPercent l = true := by
  unfold matchPat2At at h
  rw [Option.bind_eq_some] at h
  obtain ⟨p1, hd1, h⟩ := h
  rw [Option.bind_eq_some] at h
  obtain ⟨r2, hdot, h⟩ := h
  rw [Option.bind_eq_some] at h
  obtain ⟨p2, hd2, h⟩ := h
  rw [Option.map_eq_some'] at h
  obtain ⟨rf, hlit, _⟩ := h
  obtain ⟨hd1ne, hd1dig, hd1eq⟩ := takeDigits1_spec hd1
  obtain ⟨hd2ne, hd2dig, hd2eq⟩ := takeDigits1_spec hd2
  have hdoteq : p1.2 = '.' :: r2 := expectChar_eq hdot
  have hp22 : p2.2 = '%' :: (" complete".toList ++ rf) :=
    (dropLit_eq _ hlit).trans rfl
  obtain ⟨d1i, x, hx⟩ : ∃ d1i x, p1.1 = d1i ++ [x] :=
    ⟨p1.1.dropLast, p1.1.getLast hd1ne, (List.dropLast_append_getLast hd1ne).symm⟩
  have hxdig : x.isDigit = true := hd1dig x (by rw [hx]; simp)
  have hat : decimalPercentAt (x :: '.' ::
      (p2.1 ++ '%' :: (" complete".toList ++ rf))) = true :=
    decimalPercentAt_build hxdig hd2ne hd2dig (" complete".toList ++ rf)
  have hshape : l = d1i ++ (x :: '.' ::
      (p2.1 ++ '%' :: (" complete".toList ++ rf))) := by
    rw [← hd1eq, hdoteq, ← hd2eq, hp22, hx]
    simp [List.append_assoc]
  rw [hshape]
  exact hasDecimalPercent_append (hasDecimalPercent_of_at hat)

theorem matchPat3At_some {l g : List Char} (h : matchPat3At l = some g) :
    hasPercentCounter l = true := by
  unfold matchPat3At at h
  rw [Option.bind_eq_some] at h
  obtain ⟨p1, hd1, h⟩ := h
  rw [Option.bind_eq_some] at h
  obtain ⟨r2, hlit, h⟩ := h
  rw [Option.bind_eq_some] at h
  obtain ⟨p2, hd2, h⟩ := h
  rw [Option.bind_eq_some] at h
  obtain ⟨r4, hslash, h⟩ := h
  rw [Option.bind_eq_some] at h
  obtain ⟨p3, hd3, h⟩ := h
  rw [Option.map_eq_some'] at h
  obtain ⟨r5, hclose, _⟩ := h
  obtain ⟨hd1ne, hd1dig, hd1eq⟩ := takeDigits1_spec hd1
  obtain ⟨hd2ne, hd2dig, hd2eq⟩ := takeDigits1_spec hd2
  obtain ⟨hd3ne, hd3dig, hd3eq⟩ := takeDigits1_spec hd3
  have hp12 : p1.2 = '%' :: ' ' :: '(' :: r2 := (dropLit_eq _ hlit).trans rfl
  have hslasheq : p2.2 = '/' :: r4 := expectChar_eq hslash
  have hcloseeq : p3.2 = ')' :: r5 := expectChar_eq hclose
  obtain ⟨d1i, x, hx⟩ : ∃ d1i x, p1.1 = d1i ++ [x] :=
    ⟨p1.1.dropLast, p1.1.getLast hd1ne, (List.dropLast_append_getLast hd1ne).symm⟩
  have hxdig : x.isDigit = true := hd1dig x (by rw [hx]; simp)
  have hat : percentCounterAt (x :: '%' :: ' ' :: '(' ::
      (p2.1 ++ '/' :: (p3.1 ++ ')' :: r5))) = true :=
    percentCounterAt_build hxdig hd2ne hd2dig hd3ne hd3dig r5
  have hshape : l = d1i ++ (x :: '%' :: ' ' :: '(' ::
      (p2.1 ++ '/' :: (p3.1 ++ ')' :: r5))) := by
    rw [← hd1eq, hp12, ← hd2eq, hslasheq, ← hd3eq, hcloseeq, hx]
    simp [List.append_assoc]
  rw [hshape]
  exact hasPercentCounter_append (hasPercentCounter_of_at hat)

theorem searchSuffix_none (m : List Char → Option (List Char))
    (Q : List Char → Bool)
    (hmono : ∀ c cs, Q (c :: cs) = false → Q cs = false)
    (hm : ∀ l g, m l = some g → Q l = true)
    (hnil : m [] = none) :
    ∀ l, Q l = false → searchSuffix m l = none := by
  intro l
  induction l with
  | nil =>
    intro h
    rw [searchSuffix]
    exact hnil
  | cons c cs ih =>
    intro h
    rw [searchSuffix]
    cases hmc : m (c :: cs) with
    | some g => exact absurd (hm _ _ hmc) (by rw [h]; exact Bool.false_ne_true)
    | none => exact ih (hmono c cs h)

theorem searchPat1_none {l : List Char} (h : hasDecimalPercent l = false) :
    searchPat1 l = none :=
  searchSuffix_none matchPat1At hasDecimalPercent
    (fun c cs hh => by
      rw [hasDecimalPercent, Bool.or_eq_false_iff] at hh
      exact hh.2)
    (fun l g hg => matchPat1At_some hg) rfl l h

theorem searchPat2_none {l : List Char} (h : hasDecimalPercent l = false) :
    searchPat2 l = none :=
  searchSuffix_none matchPat2At hasDecimalPercent
    (fun c cs hh => by
      rw [hasDecimalPercent, Bool.or_eq_false_iff] at hh
      exact hh.2)
    (fun l g hg => matchPat2At_some hg) rfl l h

theorem searchPat3_none {l : List Char} (h : hasPercentCounter l = false) :
    searchPat3 l = none :=
  searchSuffix_none matchPat3At hasPercentCounter
    (fun c cs hh => by
      rw [hasPercentCounter, Bool.or_eq_false_iff] at hh
      exact hh.2)
    (fun l g hg => matchPat3At_some hg) rfl l h

/-- **C10.** A log text with no error phrase whose only percentage
indications are integer percentages — no decimal-fraction percentage
(`\d.\d+%`) occurs, and no integer percentage is followed by a `(n/m)`
counter — classifies as no signal: the first two patterns require the
decimal fraction and the third requires the counter. -/
theorem integer_percent_no_signal (s : String)
    (hdp : hasDecimalPercent s.toList = false)
    (hpcnt : hasPercentCounter s.toList = false)
    (h1 : hasAuthPhrase s.toList = false)
    (h2 : hasInvalidAppId s.toList = false)
    (h3 : hasNoSpace s.toList = false)
    (h4 : hasErrorMarker s.toList = false) :
    parse_progress s = ParseResult.noSignal := by
  have hp1 : searchPat1 s.toList = none := searchPat1_none hdp
  have hp2 : searchPat2 s.toList = none := searchPat2_none hdp
  have hp3 : searchPat3 s.toList = none := searchPat3_none hpcnt
  show parse_progressL s.toList = ParseResult.noSignal
  simp only [parse_progressL, h1, h2, h3, h4, Bool.false_eq_true, if_false,
    extractPercent, hp1, hp2, hp3, Option.none_bind]

/-- Witness for C10: the integer percentage line `"Progress: 42%"` yields
no signal. -/
theorem integer_percent_no_signal_app :
    hasDecimalPercent ("Progress: 42%".toList) = false ∧
    hasPercentCounter ("Progress: 42%".toList) = false ∧
    parse_progress "Progress: 42%" = ParseResult.noSignal :=
  ⟨by decide, by decide,
    integer_percent_no_signal "Progress: 42%" (by decide) (by decide) (by decide)
      (by decide) (by decide) (by decide)⟩

/-- Witness for C2 (amended): the spec's end-to-end URL example. -/
theorem extract_game_id_trichotomy_app :
    startsWithL ("http".toList)
      ("https://store.steampowered.com/app/570/Dota_2/".toList) = true ∧
    searchURL ("https://store.steampowered.com/app/570/Dota_2/".toList) =
      some ['5', '7', '0'] ∧
    extract_game_id "https://store.steampowered.com/app/570/Dota_2/" = some "570" :=
  ⟨by decide, by decide,
    ((extract_game_id_trichotomy "https://store.steampowered.com/app/570/Dota_2/").1
      (by decide) ['5', '7', '0'] (by decide)).trans (by decide)⟩

end SteamApp
